import Mathlib

/-!
Verification development for the AudiobookSorting repository.

The Python sources are shallow-embedded as executable Lean definitions:

* `scripts/metadata_extractor.py` — series inference (`extract_series_info`),
  tag-based extraction (`extract_m4b_metadata`, `extract_mp3_metadata`,
  `extract_file_metadata`) and the API merge in `extract_metadata`.
* `scripts/api_query.py` — match scoring (`scoreA`, `is_good_match`),
  Google Books search (`buildQueries`, `find_best_match`,
  `search_google_books`), cache records and `search_book`.
* `main.py` — field cleaning (`clean_metadata_value`) and the single-entry
  LLM operation (`mergeLLM`, `query_llm_for_entry`).
* `scripts/data_manager.py` — the entry store (`update_entry`,
  `set_entry_status`).

External effects (tag reading, HTTP, the LLM backend, the filesystem) are
passed in as explicit oracle arguments; the rest of each function is
translated statement by statement from the Python source.
-/

namespace AudiobookSorting

/-! ### Python string primitives

`isPySpace` covers the six ASCII whitespace characters recognised by
the Python `\s` class, `str.strip()` and `int()` (the embedding restricts
the Unicode classes to their ASCII parts, which covers all data the
repository handles). `isDigitC` likewise models `\d` on ASCII digits. -/

def isPySpace (c : Char) : Bool :=
  c = ' ' || c = '\t' || c = '\n' || c = '\r' || c = '\x0b' || c = '\x0c'

def isDigitC (c : Char) : Bool :=
  '0' ≤ c && c ≤ '9'

/-- Python `str.lower()` (ASCII part). -/
def pyLower (s : String) : String := ⟨s.data.map Char.toLower⟩

/-- Python `str.strip()` on a character list (ASCII whitespace part). -/
def pyStripList (cs : List Char) : List Char :=
  ((cs.dropWhile isPySpace).reverse.dropWhile isPySpace).reverse

/-- Python `str.strip()`. -/
def pyStrip (s : String) : String := ⟨pyStripList s.data⟩

/-- Substring test on character lists, modelling the Python `needle in hay`. -/
def containsList (needle : List Char) : List Char → Bool
  | [] => needle.isEmpty
  | c :: rest => List.isPrefixOf needle (c :: rest) || containsList needle rest

/-- Python `needle in hay` for strings. -/
def strContains (hay needle : String) : Bool := containsList needle.data hay.data

/-- Python `s.split(sep)[0]` for a nonempty separator: everything before
the first occurrence of `sep` (the whole string when `sep` is absent). -/
def beforeFirst (sep : List Char) : List Char → List Char
  | [] => []
  | c :: rest =>
    if List.isPrefixOf sep (c :: rest) then []
    else c :: beforeFirst sep rest

/-- Match a literal case-insensitively at the head of the input, returning
the remaining input on success (used for the `(?:Book|Volume|Part|#)`
alternatives under `re.IGNORECASE`). -/
def matchLitCI : List Char → List Char → Option (List Char)
  | [], s => some s
  | _ :: _, [] => none
  | p :: ps, c :: cs => if c.toLower = p.toLower then matchLitCI ps cs else none

/-- Match a literal case-sensitively at the head of the input. -/
def matchLit : List Char → List Char → Option (List Char)
  | [], s => some s
  | _ :: _, [] => none
  | p :: ps, c :: cs => if c = p then matchLit ps cs else none

/-- Greedy `\s*`: drop the maximal whitespace run (in the three patterns of
`_extract_series_info` every `\s*` is followed by a non-whitespace token, so
greedy matching with no backtracking is exact). -/
def dropSpacesL (cs : List Char) : List Char := cs.dropWhile isPySpace

/-! ### `MetadataExtractor._extract_series_info` (scripts/metadata_extractor.py:119)

The three patterns, tried in order under `re.search` / `re.IGNORECASE`:

1. `(.*?)\s*[,-]\s*(?:Book|Volume|Part|#)?\s*(\d+)`
2. `(.*?)\s*#(\d+)`
3. `(.*?)\s*\((?:Book|Volume|Part)?\s*(\d+)\)`

Each pattern starts with a lazy group followed by tokens that make the
remainder deterministic except for the keyword alternation, which
backtracks in the written order and then to the empty alternative.
`re.search` semantics: smallest start position first, then shortest lazy
group-1; `.` does not match a newline. -/

/-- `\s*(\d+)` with nothing after it: drop whitespace, take the maximal
nonempty digit run (group 2). -/
def tailDigits (s : List Char) : Option String :=
  let s2 := dropSpacesL s
  let ds := s2.takeWhile isDigitC
  if ds.isEmpty then none else some ⟨ds⟩

/-- `(?:kw₁|kw₂|…)?\s*(\d+)`: try each keyword alternative in order (each
followed by `\s*(\d+)`), then the empty alternative. -/
def kwDigits : List (List Char) → List Char → Option String
  | [], s => tailDigits s
  | kw :: rest, s =>
    match matchLitCI kw s with
    | some s2 =>
      match tailDigits s2 with
      | some d => some d
      | none => kwDigits rest s
    | none => kwDigits rest s

/-- Tail of pattern 1 after group 1: `\s*[,-]\s*(?:Book|Volume|Part|#)?\s*(\d+)`. -/
def rest1 (s : List Char) : Option String :=
  match dropSpacesL s with
  | c :: s2 =>
    if c = ',' || c = '-' then
      kwDigits [['B','o','o','k'], ['V','o','l','u','m','e'], ['P','a','r','t'], ['#']]
        (dropSpacesL s2)
    else none
  | [] => none

/-- Tail of pattern 2 after group 1: `\s*#(\d+)` (digits immediately after `#`). -/
def rest2 (s : List Char) : Option String :=
  match dropSpacesL s with
  | '#' :: s2 =>
    let ds := s2.takeWhile isDigitC
    if ds.isEmpty then none else some ⟨ds⟩
  | _ => none

/-- `\s*(\d+)\)`: whitespace, nonempty digit run, then a closing paren. -/
def digitsParen (s : List Char) : Option String :=
  let s2 := dropSpacesL s
  let ds := s2.takeWhile isDigitC
  if ds.isEmpty then none
  else
    match s2.drop ds.length with
    | ')' :: _ => some ⟨ds⟩
    | _ => none

/-- `(?:kw₁|kw₂|…)?\s*(\d+)\)`: keyword alternatives in order, then empty. -/
def kwDigitsParen : List (List Char) → List Char → Option String
  | [], s => digitsParen s
  | kw :: rest, s =>
    match matchLitCI kw s with
    | some s2 =>
      match digitsParen s2 with
      | some d => some d
      | none => kwDigitsParen rest s
    | none => kwDigitsParen rest s

/-- Tail of pattern 3 after group 1: `\s*\((?:Book|Volume|Part)?\s*(\d+)\)`. -/
def rest3 (s : List Char) : Option String :=
  match dropSpacesL s with
  | '(' :: s2 =>
    kwDigitsParen [['B','o','o','k'], ['V','o','l','u','m','e'], ['P','a','r','t']] s2
  | _ => none

/-- Lazy group 1 at a fixed start position: grow the group one character at
a time (never across a newline, since `.` excludes `\n`), trying the
pattern tail first at each length. `acc` holds the reversed group-1
characters consumed so far. -/
def lazyGroupAt (tail : List Char → Option String) : List Char → List Char → Option (String × String)
  | acc, [] =>
    match tail [] with
    | some d => some (⟨acc.reverse⟩, d)
    | none => none
  | acc, c :: rest =>
    match tail (c :: rest) with
    | some d => some (⟨acc.reverse⟩, d)
    | none => if c = '\n' then none else lazyGroupAt tail (c :: acc) rest

/-- `re.search` for a pattern of shape `(.*?)<tail>`: try start positions
left to right; at each, the lazy group grows from the empty string. -/
def searchLazy (tail : List Char → Option String) : List Char → Option (String × String)
  | [] => lazyGroupAt tail [] []
  | c :: rest =>
    match lazyGroupAt tail [] (c :: rest) with
    | some r => some r
    | none => searchLazy tail rest

/-- `MetadataExtractor._extract_series_info`: try the three patterns in
order; on the first match return `(group(1).strip(), group(2))`; with empty
input or no match return `("", "")`. -/
def extract_series_info (text : String) : String × String :=
  if text = "" then ("", "")
  else
    match searchLazy rest1 text.data with
    | some (g1, g2) => (pyStrip g1, g2)
    | none =>
      match searchLazy rest2 text.data with
      | some (g1, g2) => (pyStrip g1, g2)
      | none =>
        match searchLazy rest3 text.data with
        | some (g1, g2) => (pyStrip g1, g2)
        | none => ("", "")

/-! ### Data model

`Meta` is the four-field metadata record exchanged with the lookup
providers (the `source` tag carried by Python result dicts is tracked
separately where it matters). Python string truthiness (`if value:`)
is the test `≠ ""`. -/

structure Meta where
  author : String
  title : String
  series : String
  series_index : String
deriving DecidableEq, Repr

/-- Extractor-side record: the dict built by `MetadataExtractor`, which
additionally carries the `album` tag (m4b only) and the `source` tag. -/
structure FileMeta where
  author : String
  title : String
  album : String
  series : String
  series_index : String
  source : String
deriving DecidableEq, Repr

/-- `MetadataExtractor._create_empty_metadata` (the `album` key is added by
the m4b path; it defaults to empty here). -/
def create_empty_metadata : FileMeta :=
  { author := "", title := "", album := "", series := "", series_index := ""
    source := "metadata" }

/-! ### Tag extraction (scripts/metadata_extractor.py:65 and :92)

The mutagen tag readers are oracles: for each path the filesystem yields
either an m4b tag atom set or an mp3 frame set, `none` standing for both a
raised exception and an absent/empty tag container (the Python code maps
both to the empty record). The `.m4b`-suffix dispatch of
`_extract_file_metadata` is folded into the oracle. An `Option String`
field distinguishes an absent tag key from an empty value. -/

structure M4bTags where
  art : Option String
  nam : Option String
  alb : Option String
deriving DecidableEq, Repr

structure Mp3Tags where
  talb : Option String
  tit2 : Option String
  tpe1 : Option String
deriving DecidableEq, Repr

inductive AudioFile where
  | m4b (tags : Option M4bTags)
  | mp3 (tags : Option Mp3Tags)
deriving DecidableEq, Repr

/-- `MetadataExtractor._extract_m4b_metadata`: author/title/album from the
`©ART`/`©nam`/`©alb` atoms (an absent atom becomes the empty string),
then series inference on the
album, falling back to the title when the series name comes back empty. -/
def extract_m4b_metadata (tags? : Option M4bTags) : FileMeta :=
  match tags? with
  | none => create_empty_metadata
  | some tags =>
    let author := tags.art.getD ""
    let title := tags.nam.getD ""
    let album := tags.alb.getD ""
    let fromAlbum := extract_series_info album
    let seriesPair := if fromAlbum.1 = "" then extract_series_info title else fromAlbum
    { author, title, album, series := seriesPair.1, series_index := seriesPair.2
      source := "metadata" }

/-- `MetadataExtractor._extract_mp3_metadata`: `TALB` is preferred as the
title over `TIT2`; `TPE1` is the author; series inference runs on the
resulting title. -/
def extract_mp3_metadata (tags? : Option Mp3Tags) : FileMeta :=
  match tags? with
  | none => create_empty_metadata
  | some tags =>
    let title :=
      match tags.talb with
      | some v => v
      | none => match tags.tit2 with
        | some v => v
        | none => ""
    let author := tags.tpe1.getD ""
    let seriesPair := extract_series_info title
    { author, title, album := "", series := seriesPair.1, series_index := seriesPair.2
      source := "metadata" }

/-- `MetadataExtractor._extract_file_metadata` with the filesystem/mutagen
oracle `fs` (the suffix test selects the constructor inside the oracle). -/
def extract_file_metadata (fs : String → AudioFile) (path : String) : FileMeta :=
  match fs path with
  | .m4b t => extract_m4b_metadata t
  | .mp3 t => extract_mp3_metadata t

/-! ### API merge (scripts/metadata_extractor.py:36–58) -/

/-- One iteration of the `for field in missing_fields` loop: a field is
written exactly when its current value is empty (it is in
`missing_fields`) and the API value is truthy. -/
def fillField (cur new : String) : String :=
  if cur = "" ∧ new ≠ "" then new else cur

/-- The merge step of `MetadataExtractor.extract_metadata`: update only
missing fields from `api_data`, and set `source := "api"` iff at least one
field was updated. -/
def mergeAPI (metadata : FileMeta) (api_data : Meta) : FileMeta :=
  let a := fillField metadata.author api_data.author
  let t := fillField metadata.title api_data.title
  let s := fillField metadata.series api_data.series
  let si := fillField metadata.series_index api_data.series_index
  let updated :=
    a ≠ metadata.author ∨ t ≠ metadata.title ∨ s ≠ metadata.series ∨
      si ≠ metadata.series_index
  { metadata with
    author := a, title := t, series := s, series_index := si
    source := if updated then "api" else metadata.source }

/-- `MetadataExtractor.extract_metadata`: tag extraction, then — when any
of the four required fields is missing — an API search (oracle `api`,
standing for `BookAPIClient.search_book`) whose result fills only the
missing fields. The `additional_files` parameter is accepted (default
`None`) exactly as in the source. -/
def extract_metadata (fs : String → AudioFile) (api : FileMeta → Option Meta)
    (primary_path : String) (additional_files : Option (List String)) : FileMeta :=
  let _ := additional_files
  let metadata := extract_file_metadata fs primary_path
  if metadata.author = "" ∨ metadata.title = "" ∨ metadata.series = "" ∨
      metadata.series_index = "" then
    match api metadata with
    | some api_data => mergeAPI metadata api_data
    | none => metadata
  else metadata

/-! ### OpenLibrary match scoring (scripts/api_query.py:159) -/

/-- The confidence score computed inside `BookAPIClient._is_good_match`:
+3 when both titles are truthy (equality was already enforced by the
gate), +2 for a case-insensitive author match, +3 for a case-insensitive
series match. -/
def scoreA (metadata result : Meta) : Nat :=
  (if metadata.title ≠ "" ∧ result.title ≠ "" then 3 else 0)
    + (if metadata.author ≠ "" ∧ result.author ≠ "" ∧
          pyLower metadata.author = pyLower result.author then 2 else 0)
    + (if metadata.series ≠ "" ∧ result.series ≠ "" ∧
          pyLower metadata.series = pyLower result.series then 3 else 0)

/-- `BookAPIClient._is_good_match`: reject when both titles are truthy but
differ case-insensitively, otherwise accept iff the score reaches 5. -/
def is_good_match (result metadata : Meta) : Bool :=
  if metadata.title ≠ "" ∧ result.title ≠ "" ∧
      pyLower metadata.title ≠ pyLower result.title then false
  else decide (scoreA metadata result ≥ 5)

/-! ### Google Books search (scripts/api_query.py:186–270) -/

/-- One `volumeInfo` object of a Google Books item. `""` models an absent
`title`/`subtitle` and `[]` an absent `authors`/`categories` array, which
the Python code treats identically via `get` defaults and truthiness.
(A present-but-empty `authors` array would make `_extract_book_data`
raise; no claim depends on that corner.) -/
structure GItem where
  title : String
  subtitle : String
  authors : List String
  categories : List String
deriving DecidableEq, Repr

/-- `re.search` for the pattern `book\s*(\d+)|volume\s*(\d+)` on an
already-lowercased
string: leftmost position, `book` branch before `volume`, greedy digits. -/
def searchBookVolume : List Char → Option String
  | [] => none
  | c :: rest =>
    match matchLit ['b','o','o','k'] (c :: rest) with
    | some s2 =>
      match tailDigits s2 with
      | some d => some d
      | none => searchBookVolumeNext rest
    | none =>
      match matchLit ['v','o','l','u','m','e'] (c :: rest) with
      | some s2 =>
        match tailDigits s2 with
        | some d => some d
        | none => searchBookVolumeNext rest
      | none => searchBookVolumeNext rest
where
  searchBookVolumeNext (rest : List Char) : Option String := searchBookVolume rest

/-- `BookAPIClient._extract_series_from_google`: if the subtitle mentions
`book`/`volume`, take the text before the (case-sensitive) literal `Book`
then `Volume`, stripped; otherwise the first category mentioning `series`,
cut before the literal `Series`, stripped. -/
def extract_series_from_google (book : GItem) : String :=
  if book.subtitle ≠ "" ∧
      (strContains (pyLower book.subtitle) "book" ∨
        strContains (pyLower book.subtitle) "volume") then
    pyStrip ⟨beforeFirst ['V','o','l','u','m','e']
      (beforeFirst ['B','o','o','k'] book.subtitle.data)⟩
  else
    match book.categories.find? (fun c => strContains (pyLower c) "series") with
    | some c => pyStrip ⟨beforeFirst ['S','e','r','i','e','s'] c.data⟩
    | none => ""

/-- `BookAPIClient._extract_series_index_from_google`: the digit group of
the first `book\s*(\d+)|volume\s*(\d+)` match in the lowercased subtitle. -/
def extract_series_index_from_google (book : GItem) : String :=
  if book.subtitle ≠ "" then
    match searchBookVolume (pyLower book.subtitle).data with
    | some d => d
    | none => ""
  else ""

/-- `BookAPIClient._extract_book_data` (the author is element 0 of the
`authors` array, defaulting to empty, i.e. `headD`). The `source: api`
tag of the result dict is dropped: only the four fields flow into
entries. -/
def extract_book_data (item : GItem) : Meta :=
  { author := item.authors.headD ""
    title := item.title
    series := extract_series_from_google item
    series_index := extract_series_index_from_google item }

/-- The per-item score of `BookAPIClient._find_best_match`: +3 exact
title / +1 substring title, +2 author membership, +2 series substring in
the subtitle. -/
def scoreItem (metadata : Meta) (item : GItem) : Nat :=
  (if metadata.title ≠ "" then
    (if pyLower item.title = pyLower metadata.title then 3
      else if strContains (pyLower item.title) (pyLower metadata.title) then 1
      else 0)
  else 0)
    + (if metadata.author ≠ "" ∧ item.authors ≠ [] ∧
          (item.authors.map pyLower).contains (pyLower metadata.author) then 2 else 0)
    + (if metadata.series ≠ "" ∧ item.subtitle ≠ "" ∧
          strContains (pyLower item.subtitle) (pyLower metadata.series) then 2 else 0)

/-- The scan of `BookAPIClient._find_best_match`: strict improvement keeps
the first item attaining the running maximum. -/
def findBestAux (metadata : Meta) : List GItem → Nat → Option Meta → Nat × Option Meta
  | [], best_score, best_match => (best_score, best_match)
  | item :: rest, best_score, best_match =>
    let sc := scoreItem metadata item
    if sc > best_score then findBestAux metadata rest sc (some (extract_book_data item))
    else findBestAux metadata rest best_score best_match

/-- `BookAPIClient._find_best_match`: the best-scoring item, required to
reach score 2. -/
def find_best_match (metadata : Meta) (items : List GItem) : Option Meta :=
  let r := findBestAux metadata items 0 none
  if r.1 ≥ 2 then r.2 else none

/-- The `search_queries` list of `BookAPIClient._search_google_books`,
in the order the source appends them. -/
def buildQueries (metadata : Meta) : List String :=
  let query_parts :=
    (if metadata.title ≠ "" then ["intitle:\"" ++ metadata.title ++ "\""] else [])
      ++ (if metadata.author ≠ "" then ["inauthor:\"" ++ metadata.author ++ "\""] else [])
      ++ (if metadata.series ≠ "" then ["\"" ++ metadata.series ++ "\""] else [])
  (if query_parts ≠ [] then [String.intercalate " AND " query_parts] else [])
    ++ (if metadata.title ≠ "" ∧ metadata.author ≠ "" then
          ["intitle:" ++ metadata.title ++ " inauthor:" ++ metadata.author] else [])
    ++ (if metadata.title ≠ "" ∧ metadata.series ≠ "" then
          ["intitle:\"" ++ metadata.title ++ "\" \"" ++ metadata.series ++ "\""] else [])

/-- The `for query in search_queries` loop: `fetch q = none` models a
transport/parse error or a response without an `items` key (both continue
to the next query); the items of a variant are accepted only through
`find_best_match`. -/
def searchGBList (metadata : Meta) (fetch : String → Option (List GItem)) :
    List String → Option Meta
  | [] => none
  | q :: qs =>
    match fetch q with
    | some items =>
      match find_best_match metadata items with
      | some b => some b
      | none => searchGBList metadata fetch qs
    | none => searchGBList metadata fetch qs

/-- `BookAPIClient._search_google_books`. -/
def search_google_books (metadata : Meta) (fetch : String → Option (List GItem)) :
    Option Meta :=
  searchGBList metadata fetch (buildQueries metadata)

/-! ### Lookup cache (scripts/api_query.py:11–75, 283–289)

The cache is a JSON object: an insertion-ordered mapping from the query
fingerprint to `{timestamp, data}`. It is modelled as an association list
with distinct keys (Python dicts cannot hold duplicates). Timestamps
(`datetime.now().timestamp()`, a float) are modelled as exact rationals;
the eviction logic only compares them. -/

structure CacheRec where
  timestamp : ℚ
  data : Meta
deriving DecidableEq, Repr

/-- First-match association-list lookup (Python `dict` access). -/
def lookupRec (k : String) : List (String × CacheRec) → Option CacheRec
  | [] => none
  | (k', v) :: rest => if k' = k then some v else lookupRec k rest

/-- Python `d[k] = v`: replace in place when the key exists, else append
(dict insertion order). -/
def dictInsertRec (k : String) (v : CacheRec) :
    List (String × CacheRec) → List (String × CacheRec)
  | [] => [(k, v)]
  | (k', v') :: rest =>
    if k' = k then (k, v) :: rest else (k', v') :: dictInsertRec k v rest

/-- `json.dumps(metadata, sort_keys=True)` on a four-field metadata dict
(keys in sorted order, default separators). The real dict can carry extra
keys such as `album`; the fingerprint role only needs determinism. -/
def cacheKey (m : Meta) : String :=
  "\x7b\"author\": \"" ++ m.author ++ "\", \"series\": \"" ++ m.series ++
    "\", \"series_index\": \"" ++ m.series_index ++ "\", \"title\": \"" ++
    m.title ++ "\"\x7d"

/-- The JSON serialisation written by `BookAPIClient._save_cache` and read
back by `_load_cache`; `json.dump`/`json.load` round-trip the mapping
unchanged. -/
def saveCacheData (cache : List (String × CacheRec)) : List (String × CacheRec) :=
  cache

/-- The eviction filter of `BookAPIClient._load_cache`: keep records with
`timestamp > now - 86400`. -/
def loadCacheAt (now : ℚ) (stored : List (String × CacheRec)) :
    List (String × CacheRec) :=
  stored.filter (fun kv => kv.2.timestamp > now - 86400)

/-- The client state visible to the cache layer: the in-memory dict
`self.cache` and the bytes on disk. -/
structure ClientState where
  cache : List (String × CacheRec)
  disk : List (String × CacheRec)
deriving DecidableEq, Repr

/-- `BookAPIClient._save_cache` with the write syscall as an oracle:
success rewrites the file with the in-memory cache; failure is caught and
logged, leaving both the state and the caller unaffected. -/
def save_cache (writeOk : Bool) (st : ClientState) : ClientState :=
  if writeOk then { st with disk := st.cache } else st

/-- `BookAPIClient._save_to_cache`: install the record in memory, then
attempt the disk write. -/
def save_to_cache (writeOk : Bool) (k : String) (data : Meta) (now : ℚ)
    (st : ClientState) : ClientState :=
  save_cache writeOk
    { st with cache := dictInsertRec k { timestamp := now, data } st.cache }

/-- `BookAPIClient.search_book`. Oracles: `ol` is the normalised result of
`_search_openlibrary` (`none` on error or no match), `fetch` drives
`_search_google_books`, `writeOk` the cache-file write, `now` the wall
clock. Returns the result together with the new client state. -/
def search_book (ol : Option Meta) (fetch : String → Option (List GItem))
    (writeOk : Bool) (metadata : Meta) (now : ℚ) (st : ClientState) :
    Option Meta × ClientState :=
  if metadata.title = "" ∧ metadata.author = "" then (none, st)
  else
    let key := cacheKey metadata
    let cacheHit :=
      match lookupRec key st.cache with
      | some entry => if entry.timestamp > now - 86400 then some entry.data else none
      | none => none
    match cacheHit with
    | some d => (some d, st)
    | none =>
      match ol with
      | some result =>
        if is_good_match result metadata then
          (some result, save_to_cache writeOk key result now st)
        else
          match search_google_books metadata fetch with
          | some result2 => (some result2, save_to_cache writeOk key result2 now st)
          | none => (none, st)
      | none =>
        match search_google_books metadata fetch with
        | some result2 => (some result2, save_to_cache writeOk key result2 now st)
        | none => (none, st)

/-! ### Python `int(...)` (used by `_clean_metadata_value`)

Grammar of `int(str)`: optional surrounding whitespace, an optional sign,
then a nonempty digit run in which single underscores may separate digits
(ASCII part of the CPython grammar). -/

def digitVal (c : Char) : Nat := c.toNat - '0'.toNat

/-- Digits after the first one, allowing `_` only between digits. -/
def parseDigitsAux : List Char → Nat → Option Nat
  | [], acc => some acc
  | '_' :: c :: rest, acc =>
    if isDigitC c then parseDigitsAux rest (acc * 10 + digitVal c) else none
  | ['_'], _ => none
  | c :: rest, acc =>
    if isDigitC c then parseDigitsAux rest (acc * 10 + digitVal c) else none

/-- A nonempty underscore-separated digit run. -/
def parseUDigits : List Char → Option Nat
  | [] => none
  | c :: rest => if isDigitC c then parseDigitsAux rest (digitVal c) else none

/-- Python `int(s)`, `none` modelling a raised `ValueError`. -/
def pyParseInt (s : String) : Option Int :=
  match pyStripList s.data with
  | '+' :: rest => (parseUDigits rest).map Int.ofNat
  | '-' :: rest => (parseUDigits rest).map (fun n => -(n : Int))
  | rest => (parseUDigits rest).map Int.ofNat

/-! ### LLM merge path (main.py:118–207)

The values in a parsed LLM JSON response are JSON scalars; `JVal` models
the ones `_clean_metadata_value` distinguishes (`null` ↦ Python `None`,
strings, integers — any other scalar would only exercise the generic
`str(value)` branch). -/

inductive JVal where
  | null
  | str (s : String)
  | int (n : Int)
deriving DecidableEq, Repr

/-- Python truthiness of a JSON scalar. -/
def jTruthy : JVal → Bool
  | .null => false
  | .str s => s ≠ ""
  | .int n => n ≠ 0

/-- Python `str(value)` (on `None` it yields `"None"`, but
`_clean_metadata_value` returns before calling `str` in that case). -/
def pyStr : JVal → String
  | .null => "None"
  | .str s => s
  | .int n => toString n

/-- `AudiobookOrganizer._clean_metadata_value` (main.py:118): `None` ↦ `""`;
the literal strings `none`/`unknown` (case-insensitively) ↦ `""`; for a
truthy `series_index`, parse as an integer, map negatives and parse
failures to `""` and everything else to `str(int(value))`. -/
def clean_metadata_value (field : String) (value : JVal) : String :=
  match value with
  | .null => ""
  | v =>
    let str_value := pyStr v
    if pyLower str_value = "none" ∨ pyLower str_value = "unknown" then ""
    else if field = "series_index" ∧ str_value ≠ "" then
      match pyParseInt str_value with
      | some index => if index < 0 then "" else toString index
      | none => ""
    else str_value

/-- One entry of the store (`book_entries.json`); only the keys the
resolution core reads and writes are modelled. -/
structure Entry where
  author : String
  title : String
  series : String
  series_index : String
  source : String
  status : String
  llm_fields : List String
deriving DecidableEq, Repr

/-- A validated LLM response: `LLMQueryClient.query_metadata` only returns
an object in which all four keys are present (their values may still be
null/empty). -/
structure LLMResult where
  author : JVal
  title : JVal
  series : JVal
  series_index : JVal
deriving DecidableEq, Repr

/-- One iteration of the `for field in [...]` loop in
`query_llm_for_entry`: `some c` when the body writes the cleaned value
`c` to the field (current value falsy, response value truthy, cleaned
value truthy), `none` when it leaves the field alone. -/
def stepField (name : String) (cur : String) (rv : JVal) : Option String :=
  if cur = "" ∧ jTruthy rv then
    let cleaned_value := clean_metadata_value name rv
    if cleaned_value ≠ "" then some cleaned_value else none
  else none

/-- The merge block of `AudiobookOrganizer.query_llm_for_entry`
(main.py:190–207), with the loop over the four fields unrolled (each
test of each iteration depends only on that field, and the names are appended to
`llm_fields` in loop order). Returns the entry as stored afterwards and
the `updated` flag. -/
def mergeLLM (entry : Entry) (result : LLMResult) : Entry × Bool :=
  let wT := stepField "title" entry.title result.title
  let wA := stepField "author" entry.author result.author
  let wS := stepField "series" entry.series result.series
  let wI := stepField "series_index" entry.series_index result.series_index
  let updated := wT.isSome || wA.isSome || wS.isSome || wI.isSome
  let llm_fields := entry.llm_fields
    ++ (if wT.isSome then ["title"] else [])
    ++ (if wA.isSome then ["author"] else [])
    ++ (if wS.isSome then ["series"] else [])
    ++ (if wI.isSome then ["series_index"] else [])
  if updated then
    ({ entry with
        title := wT.getD entry.title
        author := wA.getD entry.author
        series := wS.getD entry.series
        series_index := wI.getD entry.series_index
        source := "llm"
        llm_fields := llm_fields
        status := "risky" }, true)
  else (entry, false)

/-- `AudiobookOrganizer.query_llm_for_entry` on an existing entry, as the
sequence of states the store sees: the first component is the entry after
the immediate `status = risky` write that precedes the LLM call (each
component is pushed through `DataManager.update_entry`, which persists
it); the second is the stored entry after the call returns. `llmResult`
is the (already validated) response of `LLMQueryClient.query_metadata`,
`none` when the client yields no usable result. -/
def query_llm_for_entry (entry : Entry) (llmResult : Option LLMResult) :
    Entry × Entry :=
  let entry1 := { entry with status := "risky" }
  match llmResult with
  | none => (entry1, entry1)
  | some result =>
    let m := mergeLLM entry1 result
    (entry1, m.1)

/-! ### Entry store (scripts/data_manager.py) -/

/-- Association-list lookup for entries. -/
def lookupEntry (k : String) : List (String × Entry) → Option Entry
  | [] => none
  | (k', v) :: rest => if k' = k then some v else lookupEntry k rest

/-- Python `d[k] = v` on the entries dict. -/
def dictInsertEntry (k : String) (v : Entry) :
    List (String × Entry) → List (String × Entry)
  | [] => [(k, v)]
  | (k', v') :: rest =>
    if k' = k then (k, v) :: rest else (k', v') :: dictInsertEntry k v rest

/-- The in-place status assignment inside `DataManager.set_entry_status`. -/
def setStatusInPlace (k : String) (status : String) :
    List (String × Entry) → List (String × Entry)
  | [] => []
  | (k', v) :: rest =>
    if k' = k then (k', { v with status }) :: rest
    else (k', v) :: setStatusInPlace k status rest

/-- `DataManager` state: the in-memory `self.entries` dict and the
persisted file contents. -/
structure DMState where
  entries : List (String × Entry)
  disk : List (String × Entry)
deriving DecidableEq, Repr

/-- `DataManager.save_entries` (the happy path; the permission-error
fallback writes the same data elsewhere). -/
def save_entries (st : DMState) : DMState :=
  { st with disk := st.entries }

/-- `DataManager.update_entry`: store the record, then save to file. -/
def update_entry (entry_id : String) (entry_data : Entry) (st : DMState) : DMState :=
  save_entries { st with entries := dictInsertEntry entry_id entry_data st.entries }

/-- `DataManager.set_entry_status`: mutate the status in memory when the
entry exists. The source contains no save call here. -/
def set_entry_status (entry_id : String) (status : String) (st : DMState) : DMState :=
  if (lookupEntry entry_id st.entries).isSome then
    { st with entries := setStatusInPlace entry_id status st.entries }
  else st

/-! ## Claims -/

/-- C5: the series-inference function is a deterministic pure function (it
is a Lean function of the text alone); it tries the three patterns in
order with the first match winning (the shape of `extract_series_info`);
it returns `("", "")` for empty text and whenever no pattern matches; and
it maps the four sample inputs to the stated outputs. -/
theorem C5_series_inference :
    extract_series_info "Mistborn - Book 1" = ("Mistborn", "1") ∧
    extract_series_info "Mistborn #2" = ("Mistborn", "2") ∧
    extract_series_info "Mistborn (Book 3)" = ("Mistborn", "3") ∧
    extract_series_info "Just A Title" = ("", "") ∧
    extract_series_info "" = ("", "") ∧
    (∀ text : String,
      searchLazy rest1 text.data = none →
      searchLazy rest2 text.data = none →
      searchLazy rest3 text.data = none →
      extract_series_info text = ("", "")) := by
  refine ⟨by decide, by decide, by decide, by decide, by decide, ?_⟩
  intro text h1 h2 h3
  by_cases ht : text = "" <;> simp [extract_series_info, ht, h1, h2, h3]

/-- Witness for C5: the no-match clause applied at a concrete input. -/
theorem C5_series_inference_witness :
    extract_series_info "Standalone Novel" = ("", "") :=
  C5_series_inference.2.2.2.2.2 "Standalone Novel" (by decide) (by decide) (by decide)

/-- The C2 sample query: title only. -/
def duneQuery : Meta :=
  { author := "", title := "Dune", series := "", series_index := "" }

/-- The C2 sample Provider-A candidate. -/
def duneCandidate : Meta :=
  { author := "Frank Herbert", title := "Dune", series := "", series_index := "" }

/-- C2 counterexample: `_is_good_match` only enforces the title gate when
*both* titles are non-empty. With an empty query title, a candidate whose
title does not equal the query title is still accepted when author and
series corroborate (score 2 + 3 = 5). -/
theorem C2_title_gate_counterexample :
    is_good_match
        { author := "Ann Leckie", title := "Ancillary Sword", series := "Imperial Radch",
          series_index := "" }
        { author := "Ann Leckie", title := "", series := "Imperial Radch",
          series_index := "" } = true ∧
    pyLower (Meta.title
        { author := "Ann Leckie", title := "", series := "Imperial Radch",
          series_index := "" }) ≠
      pyLower (Meta.title
        { author := "Ann Leckie", title := "Ancillary Sword", series := "Imperial Radch",
          series_index := "" }) := by
  decide

/-- C2 (amended): acceptance is equivalent to the title gate *restricted
to the case where both titles are non-empty* together with score ≥ 5,
where the score is +3 when both titles are present, +2 on a
case-insensitive author match and +3 on a case-insensitive series match;
the Dune sample scores 3 and is rejected. -/
theorem C2_provider_a_acceptance :
    (∀ m r : Meta,
      is_good_match r m = true ↔
        ((m.title ≠ "" → r.title ≠ "" → pyLower m.title = pyLower r.title) ∧
          scoreA m r ≥ 5)) ∧
    scoreA duneQuery duneCandidate = 3 ∧
    is_good_match duneCandidate duneQuery = false := by
  refine ⟨?_, by decide, by decide⟩
  intro m r
  constructor
  · intro hacc
    unfold is_good_match at hacc
    split at hacc
    · exact absurd hacc (by simp)
    · next h =>
      push_neg at h
      exact ⟨fun h1 h2 => h h1 h2, of_decide_eq_true hacc⟩
  · rintro ⟨hgate, hscore⟩
    unfold is_good_match
    split
    · next h => exact absurd (hgate h.1 h.2.1) h.2.2
    · exact decide_eq_true hscore

/-- Witness for C2: the amended equivalence applied at a concrete pair in
which both titles are present and equal and the author corroborates. -/
theorem C2_provider_a_acceptance_witness :
    is_good_match
      { author := "Frank Herbert", title := "Dune", series := "", series_index := "" }
      { author := "Frank Herbert", title := "Dune", series := "", series_index := "" } = true :=
  (C2_provider_a_acceptance.1
      { author := "Frank Herbert", title := "Dune", series := "", series_index := "" }
      { author := "Frank Herbert", title := "Dune", series := "", series_index := "" }).mpr
    ⟨by decide, by decide⟩

/-- Filesystem oracle for C7: the primary file has no readable tags, its
sibling carries an album tag. -/
def c7fs : String → AudioFile := fun p =>
  if p = "book/part2.mp3" then
    .mp3 (some { talb := some "Mistborn", tit2 := none, tpe1 := none })
  else .mp3 none

/-- C7: `MetadataExtractor.extract_metadata` accepts `additional_files`
but never reads it — the result is independent of the sibling list, and on
a primary file with no recoverable title the album tag of the sibling is never
consulted (title stays empty even though a sibling carries one). -/
theorem C7_sibling_recursion_missing :
    (∀ (fs : String → AudioFile) (api : FileMeta → Option Meta) (p : String)
        (a b : Option (List String)),
      extract_metadata fs api p a = extract_metadata fs api p b) ∧
    (extract_metadata c7fs (fun _ => none) "book/part1.mp3"
        (some ["book/part2.mp3"])).title = "" := by
  exact ⟨fun fs api p a b => rfl, rfl⟩

/-- A stored entry for the C9 scenario. -/
def c9entry : Entry :=
  { author := "A", title := "T", series := "", series_index := ""
    source := "metadata", status := "pending", llm_fields := [] }

/-- The store after one persisted update. -/
def c9state : DMState := update_entry "x" c9entry { entries := [], disk := [] }

/-- C9 counterexample: `DataManager.set_entry_status` mutates the entry in
memory but contains no save call, so after it returns the disk no longer
matches the store — refuting "every mutation ... is immediately followed
by persisting the entire store to disk before the operation returns". -/
theorem C9_set_status_not_persisted :
    (set_entry_status "x" "approved" c9state).entries ≠
      (set_entry_status "x" "approved" c9state).disk := by
  decide

/-- C9 (amended): `update_entry` persists the whole store before
returning, but `set_entry_status` (unused by the application) only mutates
the in-memory dict and leaves the persisted file untouched. -/
theorem C9_persistence :
    (∀ (entry_id : String) (entry_data : Entry) (st : DMState),
      (update_entry entry_id entry_data st).disk =
        (update_entry entry_id entry_data st).entries) ∧
    (∀ (entry_id status : String) (st : DMState),
      (set_entry_status entry_id status st).disk = st.disk) := by
  refine ⟨fun i d st => rfl, fun i s st => ?_⟩
  unfold set_entry_status
  split <;> rfl

/-! ### Merge helper lemmas (shared by C1, C3, C4) -/

theorem fillField_of_ne (cur new : String) (h : cur ≠ "") : fillField cur new = cur := by
  unfold fillField
  rw [if_neg]
  exact fun hc => h hc.1

theorem stepField_of_ne (name cur : String) (rv : JVal) (h : cur ≠ "") :
    stepField name cur rv = none := by
  unfold stepField
  rw [if_neg]
  exact fun hc => h hc.1

theorem stepField_of_clean_empty (name cur : String) (rv : JVal)
    (h : clean_metadata_value name rv = "") : stepField name cur rv = none := by
  unfold stepField
  split
  · simp [h]
  · rfl

theorem mergeLLM_title_eq (e : Entry) (r : LLMResult) :
    (mergeLLM e r).1.title = (stepField "title" e.title r.title).getD e.title := by
  dsimp only [mergeLLM]
  split
  · rfl
  · next hu =>
    cases hw : stepField "title" e.title r.title with
    | none => rfl
    | some v => simp [hw] at hu

theorem mergeLLM_author_eq (e : Entry) (r : LLMResult) :
    (mergeLLM e r).1.author = (stepField "author" e.author r.author).getD e.author := by
  dsimp only [mergeLLM]
  split
  · rfl
  · next hu =>
    cases hw : stepField "author" e.author r.author with
    | none => rfl
    | some v => simp [hw] at hu

theorem mergeLLM_series_eq (e : Entry) (r : LLMResult) :
    (mergeLLM e r).1.series = (stepField "series" e.series r.series).getD e.series := by
  dsimp only [mergeLLM]
  split
  · rfl
  · next hu =>
    cases hw : stepField "series" e.series r.series with
    | none => rfl
    | some v => simp [hw] at hu

theorem mergeLLM_series_index_eq (e : Entry) (r : LLMResult) :
    (mergeLLM e r).1.series_index =
      (stepField "series_index" e.series_index r.series_index).getD e.series_index := by
  dsimp only [mergeLLM]
  split
  · rfl
  · next hu =>
    cases hw : stepField "series_index" e.series_index r.series_index with
    | none => rfl
    | some v => simp [hw] at hu

theorem mergeLLM_status_of_updated (e : Entry) (r : LLMResult)
    (h : (mergeLLM e r).2 = true) : (mergeLLM e r).1.status = "risky" := by
  dsimp only [mergeLLM] at h ⊢
  split at h
  · split
    · rfl
    · simp_all
  · exact absurd h (by simp)

/-- Membership in the merged `llm_fields`: a name is either inherited or
is one of the four loop names whose step wrote a value. -/
theorem mergeLLM_fields_mem (e : Entry) (r : LLMResult) (f : String)
    (h : f ∈ (mergeLLM e r).1.llm_fields) :
    f ∈ e.llm_fields ∨
      (f = "title" ∧ (stepField "title" e.title r.title).isSome = true) ∨
      (f = "author" ∧ (stepField "author" e.author r.author).isSome = true) ∨
      (f = "series" ∧ (stepField "series" e.series r.series).isSome = true) ∨
      (f = "series_index" ∧
        (stepField "series_index" e.series_index r.series_index).isSome = true) := by
  dsimp only [mergeLLM] at h
  split at h
  · simp only [List.append_assoc, List.mem_append] at h
    rcases h with h | h | h | h | h
    · exact Or.inl h
    all_goals {
      split at h <;> simp_all
    }
  · exact Or.inl h

/-- C1: both merge sites fill only empty fields — for each of the four
fields and for both the API merge (`extract_metadata`) and the LLM merge
(`query_llm_for_entry`), either the field is unchanged or it was empty
before the merge; equivalently, a non-empty field keeps exactly its value
and a field is written only when it was empty. -/
theorem C1_fill_only_if_empty :
    ∀ (m : FileMeta) (b : Meta) (e : Entry) (r : LLMResult),
      ((mergeAPI m b).author = m.author ∨ m.author = "") ∧
      ((mergeAPI m b).title = m.title ∨ m.title = "") ∧
      ((mergeAPI m b).series = m.series ∨ m.series = "") ∧
      ((mergeAPI m b).series_index = m.series_index ∨ m.series_index = "") ∧
      ((mergeLLM e r).1.author = e.author ∨ e.author = "") ∧
      ((mergeLLM e r).1.title = e.title ∨ e.title = "") ∧
      ((mergeLLM e r).1.series = e.series ∨ e.series = "") ∧
      ((mergeLLM e r).1.series_index = e.series_index ∨ e.series_index = "") := by
  intro m b e r
  refine ⟨?_, ?_, ?_, ?_, ?_, ?_, ?_, ?_⟩
  · by_cases h : m.author = ""
    · exact Or.inr h
    · exact Or.inl (fillField_of_ne m.author b.author h)
  · by_cases h : m.title = ""
    · exact Or.inr h
    · exact Or.inl (fillField_of_ne m.title b.title h)
  · by_cases h : m.series = ""
    · exact Or.inr h
    · exact Or.inl (fillField_of_ne m.series b.series h)
  · by_cases h : m.series_index = ""
    · exact Or.inr h
    · exact Or.inl (fillField_of_ne m.series_index b.series_index h)
  · by_cases h : e.author = ""
    · exact Or.inr h
    · exact Or.inl (by rw [mergeLLM_author_eq, stepField_of_ne _ _ _ h]; rfl)
  · by_cases h : e.title = ""
    · exact Or.inr h
    · exact Or.inl (by rw [mergeLLM_title_eq, stepField_of_ne _ _ _ h]; rfl)
  · by_cases h : e.series = ""
    · exact Or.inr h
    · exact Or.inl (by rw [mergeLLM_series_eq, stepField_of_ne _ _ _ h]; rfl)
  · by_cases h : e.series_index = ""
    · exact Or.inr h
    · exact Or.inl (by rw [mergeLLM_series_index_eq, stepField_of_ne _ _ _ h]; rfl)

/-- C3: `query_llm_for_entry` stores status `risky` before the LLM backend
is called (first component), and whenever the merge writes at least one
field (`updated` flag) the stored status after the call is again `risky` —
for an arbitrary prior status, `approved` included. -/
theorem C3_llm_forces_risky :
    ∀ (e : Entry) (res : Option LLMResult),
      (query_llm_for_entry e res).1.status = "risky" ∧
      (∀ r, res = some r →
        (mergeLLM { e with status := "risky" } r).2 = true →
        (query_llm_for_entry e res).2.status = "risky") := by
  intro e res
  constructor
  · cases res <;> rfl
  · intro r hr hw
    subst hr
    exact mergeLLM_status_of_updated _ _ hw

/-- A previously approved entry with a missing title, for the C3 witness. -/
def c3entry : Entry :=
  { author := "Brandon Sanderson", title := "", series := "", series_index := ""
    source := "metadata", status := "approved", llm_fields := [] }

/-- An LLM response supplying the missing title. -/
def c3result : LLMResult :=
  { author := JVal.null, title := JVal.str "The Final Empire"
    series := JVal.null, series_index := JVal.null }

/-- Witness for C3: on a previously `approved` entry, the pre-call status
and the post-merge status are both `risky`. -/
theorem C3_llm_forces_risky_witness :
    (query_llm_for_entry c3entry (some c3result)).1.status = "risky" ∧
    (query_llm_for_entry c3entry (some c3result)).2.status = "risky" :=
  ⟨(C3_llm_forces_risky c3entry (some c3result)).1,
    (C3_llm_forces_risky c3entry (some c3result)).2 c3result rfl (by decide)⟩

/-- A non-empty cleaned `series_index` string value is the decimal
rendering of a natural number. -/
theorem clean_index_str_shape (s : String)
    (hv : clean_metadata_value "series_index" (JVal.str s) ≠ "") :
    ∃ n : Nat, clean_metadata_value "series_index" (JVal.str s) = toString n := by
  dsimp only [clean_metadata_value, pyStr] at hv ⊢
  by_cases h1 : pyLower s = "none" ∨ pyLower s = "unknown"
  · rw [if_pos h1] at hv
    exact absurd rfl hv
  · rw [if_neg h1] at hv ⊢
    by_cases h2 : s = ""
    · rw [if_neg (by simp [h2])] at hv
      exact absurd h2 hv
    · rw [if_pos ⟨rfl, h2⟩] at hv ⊢
      cases hp : pyParseInt s with
      | none =>
        rw [hp] at hv
        exact absurd rfl hv
      | some n =>
        rw [hp] at hv
        dsimp only at hv
        by_cases hn : n < 0
        · rw [if_pos hn] at hv
          exact absurd rfl hv
        · refine ⟨n.toNat, ?_⟩
          show (if n < 0 then "" else toString n) = toString n.toNat
          rw [if_neg hn,
            show n = Int.ofNat n.toNat from (Int.toNat_of_nonneg (not_lt.mp hn)).symm]
          rfl

/-- C4: the cleaning rule of the LLM path — `None` and the literal strings
`none`/`unknown` (case-insensitively) clean to empty; a `series_index`
that does not parse as a non-negative integer cleans to empty; a field
whose cleaned value is empty is neither written nor recorded in
`llm_fields`; and a non-empty cleaned `series_index` is the decimal
rendering of a natural number (so the stored value parses as a
non-negative integer). -/
theorem C4_llm_value_cleaning :
    (∀ field : String, clean_metadata_value field JVal.null = "") ∧
    (∀ field s : String, (pyLower s = "none" ∨ pyLower s = "unknown") →
      clean_metadata_value field (JVal.str s) = "") ∧
    (∀ s : String, (∀ n : Int, pyParseInt s = some n → n < 0) →
      clean_metadata_value "series_index" (JVal.str s) = "") ∧
    (∀ (e : Entry) (r : LLMResult),
      (clean_metadata_value "title" r.title = "" →
        (mergeLLM e r).1.title = e.title ∧
        ("title" ∉ e.llm_fields → "title" ∉ (mergeLLM e r).1.llm_fields)) ∧
      (clean_metadata_value "author" r.author = "" →
        (mergeLLM e r).1.author = e.author ∧
        ("author" ∉ e.llm_fields → "author" ∉ (mergeLLM e r).1.llm_fields)) ∧
      (clean_metadata_value "series" r.series = "" →
        (mergeLLM e r).1.series = e.series ∧
        ("series" ∉ e.llm_fields → "series" ∉ (mergeLLM e r).1.llm_fields)) ∧
      (clean_metadata_value "series_index" r.series_index = "" →
        (mergeLLM e r).1.series_index = e.series_index ∧
        ("series_index" ∉ e.llm_fields →
          "series_index" ∉ (mergeLLM e r).1.llm_fields))) ∧
    (∀ v : JVal, clean_metadata_value "series_index" v ≠ "" →
      ∃ n : Nat, clean_metadata_value "series_index" v = toString n) := by
  refine ⟨fun field => rfl, ?_, ?_, ?_, ?_⟩
  · intro field s hs
    dsimp only [clean_metadata_value, pyStr]
    rw [if_pos hs]
  · intro s hneg
    dsimp only [clean_metadata_value, pyStr]
    by_cases h1 : pyLower s = "none" ∨ pyLower s = "unknown"
    · rw [if_pos h1]
    · rw [if_neg h1]
      by_cases h2 : s = ""
      · rw [if_neg (by simp [h2])]
        exact h2
      · rw [if_pos ⟨rfl, h2⟩]
        cases hp : pyParseInt s with
        | none => rfl
        | some n =>
          dsimp only
          rw [if_pos (hneg n hp)]
  · intro e r
    refine ⟨?_, ?_, ?_, ?_⟩
    · intro hclean
      refine ⟨?_, ?_⟩
      · rw [mergeLLM_title_eq, stepField_of_clean_empty _ _ _ hclean]
        rfl
      · intro hnot hmem
        rcases mergeLLM_fields_mem e r _ hmem with h | ⟨_, hsome⟩ | ⟨heq, _⟩ |
          ⟨heq, _⟩ | ⟨heq, _⟩
        · exact hnot h
        · rw [stepField_of_clean_empty _ _ _ hclean] at hsome
          exact absurd hsome (by simp)
        · exact absurd heq (by decide)
        · exact absurd heq (by decide)
        · exact absurd heq (by decide)
    · intro hclean
      refine ⟨?_, ?_⟩
      · rw [mergeLLM_author_eq, stepField_of_clean_empty _ _ _ hclean]
        rfl
      · intro hnot hmem
        rcases mergeLLM_fields_mem e r _ hmem with h | ⟨heq, _⟩ | ⟨_, hsome⟩ |
          ⟨heq, _⟩ | ⟨heq, _⟩
        · exact hnot h
        · exact absurd heq (by decide)
        · rw [stepField_of_clean_empty _ _ _ hclean] at hsome
          exact absurd hsome (by simp)
        · exact absurd heq (by decide)
        · exact absurd heq (by decide)
    · intro hclean
      refine ⟨?_, ?_⟩
      · rw [mergeLLM_series_eq, stepField_of_clean_empty _ _ _ hclean]
        rfl
      · intro hnot hmem
        rcases mergeLLM_fields_mem e r _ hmem with h | ⟨heq, _⟩ | ⟨heq, _⟩ |
          ⟨_, hsome⟩ | ⟨heq, _⟩
        · exact hnot h
        · exact absurd heq (by decide)
        · exact absurd heq (by decide)
        · rw [stepField_of_clean_empty _ _ _ hclean] at hsome
          exact absurd hsome (by simp)
        · exact absurd heq (by decide)
    · intro hclean
      refine ⟨?_, ?_⟩
      · rw [mergeLLM_series_index_eq, stepField_of_clean_empty _ _ _ hclean]
        rfl
      · intro hnot hmem
        rcases mergeLLM_fields_mem e r _ hmem with h | ⟨heq, _⟩ | ⟨heq, _⟩ |
          ⟨heq, _⟩ | ⟨_, hsome⟩
        · exact hnot h
        · exact absurd heq (by decide)
        · exact absurd heq (by decide)
        · exact absurd heq (by decide)
        · rw [stepField_of_clean_empty _ _ _ hclean] at hsome
          exact absurd hsome (by simp)
  · intro v hv
    cases v with
    | null => exact absurd rfl hv
    | str s => exact clean_index_str_shape s hv
    | int k =>
      exact clean_index_str_shape (toString k)
        (hv : clean_metadata_value "series_index" (JVal.str (toString k)) ≠ "")

/-- A response whose `series_index` is unusable, for the C4 witness. -/
def c4result : LLMResult :=
  { author := JVal.str "Unknown", title := JVal.null
    series := JVal.str "Wax and Wayne", series_index := JVal.str "n/a" }

/-- An entry with everything still missing, for the C4 witness. -/
def c4entry : Entry :=
  { author := "", title := "", series := "", series_index := ""
    source := "metadata", status := "pending", llm_fields := [] }

/-- Witness for C4: the cleaning conjuncts applied at concrete inputs — a
null value, the literal `Unknown`, the negative index `-3`, the
non-numeric index `n/a` of `c4result` (whose merge neither writes
`series_index` nor records it in `llm_fields`), and the in-range value
`7`. -/
theorem C4_llm_value_cleaning_witness :
    clean_metadata_value "title" JVal.null = "" ∧
    clean_metadata_value "author" (JVal.str "Unknown") = "" ∧
    clean_metadata_value "series_index" (JVal.str "-3") = "" ∧
    ((mergeLLM c4entry c4result).1.series_index = c4entry.series_index ∧
      ("series_index" ∉ c4entry.llm_fields →
        "series_index" ∉ (mergeLLM c4entry c4result).1.llm_fields)) ∧
    (∃ n : Nat, clean_metadata_value "series_index" (JVal.str "7") = toString n) :=
  ⟨C4_llm_value_cleaning.1 "title",
    C4_llm_value_cleaning.2.1 "author" "Unknown" (Or.inr (by decide)),
    C4_llm_value_cleaning.2.2.1 "-3" (by
      intro n h
      rw [show pyParseInt "-3" = some (-3) from by decide] at h
      cases h
      decide),
    (C4_llm_value_cleaning.2.2.2.1 c4entry c4result).2.2.2 (by decide),
    C4_llm_value_cleaning.2.2.2.2 (JVal.str "7") (by decide)⟩

/-! ### `_find_best_match` lemmas (C6) -/

theorem findBestAux_unchanged (m : Meta) :
    ∀ (items : List GItem) (best : Nat) (bm : Option Meta),
      (∀ it ∈ items, scoreItem m it ≤ best) →
      findBestAux m items best bm = (best, bm) := by
  intro items
  induction items with
  | nil => intro best bm _; rfl
  | cons it rest ih =>
    intro best bm h
    unfold findBestAux
    rw [if_neg (not_lt.mpr (h it (List.mem_cons_self it rest)))]
    exact ih best bm fun x hx => h x (List.mem_cons_of_mem _ hx)

theorem findBestAux_ge_best (m : Meta) :
    ∀ (items : List GItem) (best : Nat) (bm : Option Meta),
      best ≤ (findBestAux m items best bm).1 := by
  intro items
  induction items with
  | nil => intro best bm; exact le_refl best
  | cons it rest ih =>
    intro best bm
    dsimp only [findBestAux]
    split
    · next h => exact le_trans (le_of_lt h) (ih _ _)
    · exact ih best bm

theorem findBestAux_ge_all (m : Meta) :
    ∀ (items : List GItem) (best : Nat) (bm : Option Meta),
      ∀ it ∈ items, scoreItem m it ≤ (findBestAux m items best bm).1 := by
  intro items
  induction items with
  | nil => intro best bm it hit; cases hit
  | cons a rest ih =>
    intro best bm it hit
    dsimp only [findBestAux]
    rcases List.mem_cons.mp hit with rfl | hmem
    · split
      · exact findBestAux_ge_best m rest _ _
      · next h => exact le_trans (not_lt.mp h) (findBestAux_ge_best m rest _ _)
    · split
      · exact ih _ _ it hmem
      · exact ih _ _ it hmem

theorem findBestAux_cases (m : Meta) :
    ∀ (items : List GItem) (best : Nat) (bm : Option Meta),
      ((findBestAux m items best bm).1 = best ∧
        (findBestAux m items best bm).2 = bm) ∨
      ∃ it ∈ items, (findBestAux m items best bm).1 = scoreItem m it ∧
        (findBestAux m items best bm).2 = some (extract_book_data it) := by
  intro items
  induction items with
  | nil => intro best bm; exact Or.inl ⟨rfl, rfl⟩
  | cons a rest ih =>
    intro best bm
    dsimp only [findBestAux]
    split
    · rcases ih (scoreItem m a) (some (extract_book_data a)) with ⟨h1, h2⟩ | ⟨it, hm, h1, h2⟩
      · exact Or.inr ⟨a, List.mem_cons_self a rest, h1, h2⟩
      · exact Or.inr ⟨it, List.mem_cons_of_mem _ hm, h1, h2⟩
    · rcases ih best bm with ⟨h1, h2⟩ | ⟨it, hm, h1, h2⟩
      · exact Or.inl ⟨h1, h2⟩
      · exact Or.inr ⟨it, List.mem_cons_of_mem _ hm, h1, h2⟩

/-- Unfolding equation for one step of the query loop. -/
theorem searchGBList_cons (m : Meta) (fetch : String → Option (List GItem))
    (q : String) (qs : List String) :
    searchGBList m fetch (q :: qs) =
      match fetch q with
      | some items =>
        match find_best_match m items with
        | some b => some b
        | none => searchGBList m fetch qs
      | none => searchGBList m fetch qs := rfl

theorem find_best_match_none_iff (m : Meta) (items : List GItem) :
    find_best_match m items = none ↔ ∀ it ∈ items, scoreItem m it < 2 := by
  dsimp only [find_best_match]
  constructor
  · intro h it hit
    split at h
    · next hge =>
      rcases findBestAux_cases m items 0 none with ⟨h1, h2⟩ | ⟨it2, _, _, h2⟩
      · rw [h1] at hge
        omega
      · rw [h2] at h
        cases h
    · next hlt =>
      exact lt_of_le_of_lt (findBestAux_ge_all m items 0 none it hit) (by omega)
  · intro h
    rw [if_neg ?hne]
    case hne =>
      rcases findBestAux_cases m items 0 none with ⟨h1, _⟩ | ⟨it, hm, h1, _⟩
      · rw [h1]
        omega
      · rw [h1]
        exact not_le.mpr (h it hm)

theorem find_best_match_some (m : Meta) (items : List GItem) (b : Meta)
    (h : find_best_match m items = some b) :
    ∃ it ∈ items, 2 ≤ scoreItem m it ∧ b = extract_book_data it ∧
      ∀ it2 ∈ items, scoreItem m it2 ≤ scoreItem m it := by
  dsimp only [find_best_match] at h
  split at h
  · next hge =>
    rcases findBestAux_cases m items 0 none with ⟨_, h2⟩ | ⟨it, hm, h1, h2⟩
    · rw [h2] at h
      cases h
    · rw [h2] at h
      refine ⟨it, hm, ?_, (Option.some.inj h).symm, ?_⟩
      · rw [h1] at hge
        exact hge
      · intro it2 hit2
        have := findBestAux_ge_all m items 0 none it2 hit2
        rw [h1] at this
        exact this
  · cases h

/-- The metadata of the C6 scenario (all three query fields present). -/
def c6meta : Meta := { author := "A", title := "T", series := "S", series_index := "" }

/-- A candidate scoring 0 against `c6meta`. -/
def c6item1 : GItem := { title := "zzz", subtitle := "", authors := [], categories := [] }

/-- A candidate with an exact title match (score 3) against `c6meta`. -/
def c6item2 : GItem := { title := "T", subtitle := "", authors := [], categories := [] }

/-- A fetch oracle under which variant 1 returns one candidate that scores
below the acceptance floor and variant 2 returns an acceptable candidate. -/
def c6fetch : String → Option (List GItem) := fun q =>
  if q = "intitle:\"T\" AND inauthor:\"A\" AND \"S\"" then some [c6item1]
  else if q = "intitle:T inauthor:A" then some [c6item2]
  else none

/-- The behaviour asserted by C6: stop at the first variant that returns
any candidates and decide on the items of that variant alone. -/
def c6FirstWithCandidates (fetch : String → Option (List GItem)) :
    List String → Option (List GItem)
  | [] => none
  | q :: qs =>
    match fetch q with
    | some (it :: its) => some (it :: its)
    | _ => c6FirstWithCandidates fetch qs

/-- The result C6 predicts for a metadata/fetch pair. -/
def c6ClaimedResult (metadata : Meta) (fetch : String → Option (List GItem)) :
    Option Meta :=
  match c6FirstWithCandidates fetch (buildQueries metadata) with
  | some items => find_best_match metadata items
  | none => none

/-- C6 counterexample: under `c6fetch` the first variant returns a
candidate (so the claimed semantics stops there and yields no match, the
lone candidate scoring 0 < 2), yet `_search_google_books` continues to the
second variant and returns its acceptable candidate. -/
theorem C6_stop_rule_counterexample :
    search_google_books c6meta c6fetch = some (extract_book_data c6item2) ∧
    c6ClaimedResult c6meta c6fetch = none := by
  constructor
  · rfl
  · rfl

/-- C6 (amended): with all three fields present the three query variants
are issued in the stated priority order; a candidate list is accepted
exactly when some candidate scores ≥ 2, in which case the returned match
is the extraction of a highest-scoring candidate; the query loop stops at the
first variant that yields an *accepted* candidate and — unlike the claim —
continues past a variant whose candidates all score below 2. -/
theorem C6_google_fallback :
    (∀ m : Meta, m.title ≠ "" → m.author ≠ "" → m.series ≠ "" →
      buildQueries m =
        [String.intercalate " AND "
            ["intitle:\"" ++ m.title ++ "\"", "inauthor:\"" ++ m.author ++ "\"",
              "\"" ++ m.series ++ "\""],
          "intitle:" ++ m.title ++ " inauthor:" ++ m.author,
          "intitle:\"" ++ m.title ++ "\" \"" ++ m.series ++ "\""]) ∧
    (∀ (m : Meta) (items : List GItem),
      find_best_match m items = none ↔ ∀ it ∈ items, scoreItem m it < 2) ∧
    (∀ (m : Meta) (items : List GItem) (b : Meta),
      find_best_match m items = some b →
        ∃ it ∈ items, 2 ≤ scoreItem m it ∧ b = extract_book_data it ∧
          ∀ it2 ∈ items, scoreItem m it2 ≤ scoreItem m it) ∧
    (∀ (m : Meta) (fetch : String → Option (List GItem)) (q : String)
        (qs : List String) (b : Meta),
      (fetch q).bind (find_best_match m) = some b →
        searchGBList m fetch (q :: qs) = some b) ∧
    (∀ (m : Meta) (fetch : String → Option (List GItem)) (q : String)
        (qs : List String),
      (fetch q).bind (find_best_match m) = none →
        searchGBList m fetch (q :: qs) = searchGBList m fetch qs) ∧
    (∀ (m : Meta) (fetch : String → Option (List GItem)),
      search_google_books m fetch = searchGBList m fetch (buildQueries m)) := by
  refine ⟨?_, find_best_match_none_iff, find_best_match_some, ?_, ?_, fun m fetch => rfl⟩
  · intro m h1 h2 h3
    simp [buildQueries, h1, h2, h3]
  · intro m fetch q qs b h
    cases hf : fetch q with
    | none => rw [hf] at h; cases h
    | some items =>
      rw [hf] at h
      have h2 : find_best_match m items = some b := h
      rw [searchGBList_cons, hf]
      dsimp only
      rw [h2]
  · intro m fetch q qs h
    cases hf : fetch q with
    | none => rw [searchGBList_cons, hf]
    | some items =>
      rw [hf] at h
      have h2 : find_best_match m items = none := h
      rw [searchGBList_cons, hf]
      dsimp only
      rw [h2]

/-- Witness for C6: the variant list at the concrete metadata and the
acceptance rule applied to concrete candidate lists. -/
theorem C6_google_fallback_witness :
    buildQueries c6meta =
      [String.intercalate " AND " ["intitle:\"T\"", "inauthor:\"A\"", "\"S\""],
        "intitle:T inauthor:A", "intitle:\"T\" \"S\""] ∧
    find_best_match c6meta [c6item1] = none ∧
    searchGBList c6meta c6fetch ["intitle:T inauthor:A"] =
      some (extract_book_data c6item2) :=
  ⟨C6_google_fallback.1 c6meta (by decide) (by decide) (by decide),
    (C6_google_fallback.2.1 c6meta [c6item1]).mpr (by decide),
    C6_google_fallback.2.2.2.1 c6meta c6fetch "intitle:T inauthor:A" []
      (extract_book_data c6item2) (by decide)⟩

/-! ### Cache lemmas (C8, C10) -/

theorem lookupRec_eq_none_of_not_mem (k : String) :
    ∀ l : List (String × CacheRec), k ∉ l.map Prod.fst → lookupRec k l = none := by
  intro l
  induction l with
  | nil => intro _; rfl
  | cons kv rest ih =>
    obtain ⟨k1, v1⟩ := kv
    intro h
    simp only [List.map_cons, List.mem_cons] at h
    push_neg at h
    dsimp only [lookupRec]
    rw [if_neg fun he => h.1 he.symm]
    exact ih h.2

theorem lookupRec_dictInsertRec_of_none (k : String) (v : CacheRec) :
    ∀ l : List (String × CacheRec), lookupRec k l = none →
      lookupRec k (dictInsertRec k v l) = some v := by
  intro l
  induction l with
  | nil =>
    intro _
    dsimp only [dictInsertRec, lookupRec]
    rw [if_pos rfl]
  | cons kv rest ih =>
    obtain ⟨k1, v1⟩ := kv
    intro h
    dsimp only [lookupRec] at h
    by_cases hk : k1 = k
    · rw [if_pos hk] at h
      cases h
    · rw [if_neg hk] at h
      dsimp only [dictInsertRec]
      rw [if_neg hk]
      dsimp only [lookupRec]
      rw [if_neg hk]
      exact ih h

/-- C8: after saving the cache and reloading it at time `now`, every
fingerprint whose record is less than 24 hours old still maps to the
identical record, and every fingerprint whose record is more than 24 hours
old is absent. -/
theorem C8_cache_roundtrip :
    ∀ (cache : List (String × CacheRec)) (now : ℚ) (k : String) (rec : CacheRec),
      (cache.map Prod.fst).Nodup →
      lookupRec k cache = some rec →
      ((now - rec.timestamp < 86400 →
          lookupRec k (loadCacheAt now (saveCacheData cache)) = some rec) ∧
        (now - rec.timestamp > 86400 →
          lookupRec k (loadCacheAt now (saveCacheData cache)) = none)) := by
  intro cache
  induction cache with
  | nil =>
    intro now k rec _ hl
    cases hl
  | cons kv rest ih =>
    obtain ⟨k1, v1⟩ := kv
    intro now k rec hnd hl
    simp only [List.map_cons, List.nodup_cons] at hnd
    dsimp only [saveCacheData, loadCacheAt] at *
    by_cases hk : k1 = k
    · subst hk
      have hrec : v1 = rec := by
        dsimp only [lookupRec] at hl
        rw [if_pos rfl] at hl
        exact Option.some.inj hl
      subst hrec
      constructor
      · intro hin
        have hp : v1.timestamp > now - 86400 := by linarith
        rw [List.filter_cons, if_pos (decide_eq_true hp)]
        dsimp only [lookupRec]
        rw [if_pos rfl]
      · intro hout
        have hp : ¬(v1.timestamp > now - 86400) := by linarith
        rw [List.filter_cons, if_neg (by simp only [decide_eq_true_eq]; exact hp)]
        exact lookupRec_eq_none_of_not_mem _ _ fun hmem =>
          hnd.1 (List.map_subset _ (List.filter_sublist _).subset hmem)
    · have hl2 : lookupRec k rest = some rec := by
        dsimp only [lookupRec] at hl
        rw [if_neg hk] at hl
        exact hl
      have hrest := ih now k rec hnd.2 hl2
      constructor
      · intro hin
        by_cases hp : v1.timestamp > now - 86400
        · rw [List.filter_cons, if_pos (decide_eq_true hp)]
          dsimp only [lookupRec]
          rw [if_neg hk]
          exact hrest.1 hin
        · rw [List.filter_cons, if_neg (by simp only [decide_eq_true_eq]; exact hp)]
          exact hrest.1 hin
      · intro hout
        by_cases hp : v1.timestamp > now - 86400
        · rw [List.filter_cons, if_pos (decide_eq_true hp)]
          dsimp only [lookupRec]
          rw [if_neg hk]
          exact hrest.2 hout
        · rw [List.filter_cons, if_neg (by simp only [decide_eq_true_eq]; exact hp)]
          exact hrest.2 hout

/-- A resolved result stored in the C8 witness cache. -/
def c8data : Meta := { author := "A", title := "T", series := "", series_index := "" }

/-- A two-record cache: one fresh record, one stale record. -/
def c8cache : List (String × CacheRec) :=
  [("k1", { timestamp := 100, data := c8data }),
   ("k2", { timestamp := -1000, data := c8data })]

/-- Witness for C8 at time 86000: the fresh record survives the
round-trip unchanged, the stale one is evicted. -/
theorem C8_cache_roundtrip_witness :
    lookupRec "k1" (loadCacheAt 86000 (saveCacheData c8cache)) =
      some { timestamp := 100, data := c8data } ∧
    lookupRec "k2" (loadCacheAt 86000 (saveCacheData c8cache)) = none :=
  ⟨(C8_cache_roundtrip c8cache 86000 "k1" { timestamp := 100, data := c8data }
      (by decide) (by decide)).1 (by norm_num),
    (C8_cache_roundtrip c8cache 86000 "k2" { timestamp := -1000, data := c8data }
      (by decide) (by decide)).2 (by norm_num)⟩

/-- C10: a failing cache-file write is invisible to the caller of
`search_book` — the returned result and the in-memory cache are identical
to the successful-write run, the disk is simply left unchanged (the
exception is caught inside `_save_cache`), and whenever a fresh lookup
produced a result the in-memory cache holds the new record under the
query fingerprint. -/
theorem save_to_cache_cache (w : Bool) (k : String) (d : Meta) (now : ℚ)
    (st : ClientState) :
    (save_to_cache w k d now st).cache =
      dictInsertRec k { timestamp := now, data := d } st.cache := by
  cases w <;> rfl

theorem save_to_cache_false_disk (k : String) (d : Meta) (now : ℚ)
    (st : ClientState) :
    (save_to_cache false k d now st).disk = st.disk := rfl

theorem C10_cache_write_failure_isolated :
    ∀ (metadata : Meta) (now : ℚ) (ol : Option Meta)
      (fetch : String → Option (List GItem)) (st : ClientState),
      (search_book ol fetch false metadata now st).1 =
        (search_book ol fetch true metadata now st).1 ∧
      (search_book ol fetch false metadata now st).2.cache =
        (search_book ol fetch true metadata now st).2.cache ∧
      (search_book ol fetch false metadata now st).2.disk = st.disk ∧
      (∀ b : Meta,
        lookupRec (cacheKey metadata) st.cache = none →
        (search_book ol fetch false metadata now st).1 = some b →
        lookupRec (cacheKey metadata)
          (search_book ol fetch false metadata now st).2.cache =
          some { timestamp := now, data := b }) := by
  intro metadata now ol fetch st
  refine ⟨?_, ?_, ?_, ?_⟩
  · dsimp only [search_book]
    by_cases h0 : metadata.title = "" ∧ metadata.author = ""
    · simp only [if_pos h0]
    · simp only [if_neg h0]
      cases hlk : lookupRec (cacheKey metadata) st.cache with
      | some entry =>
        simp only [hlk]
        by_cases hfr : entry.timestamp > now - 86400
        · simp only [if_pos hfr]
        · simp only [if_neg hfr]
          cases ol with
          | some result =>
            cases hg : is_good_match result metadata with
            | true => simp [hg]
            | false =>
              cases hgb : search_google_books metadata fetch with
              | some r2 => simp [hg, hgb]
              | none => simp [hg, hgb]
          | none =>
            cases hgb : search_google_books metadata fetch with
            | some r2 => simp [hgb]
            | none => simp [hgb]
      | none =>
        simp only [hlk]
        cases ol with
        | some result =>
          cases hg : is_good_match result metadata with
          | true => simp [hg]
          | false =>
            cases hgb : search_google_books metadata fetch with
            | some r2 => simp [hg, hgb]
            | none => simp [hg, hgb]
        | none =>
          cases hgb : search_google_books metadata fetch with
          | some r2 => simp [hgb]
          | none => simp [hgb]
  · dsimp only [search_book]
    by_cases h0 : metadata.title = "" ∧ metadata.author = ""
    · simp only [if_pos h0]
    · simp only [if_neg h0]
      cases hlk : lookupRec (cacheKey metadata) st.cache with
      | some entry =>
        simp only [hlk]
        by_cases hfr : entry.timestamp > now - 86400
        · simp only [if_pos hfr]
        · simp only [if_neg hfr]
          cases ol with
          | some result =>
            cases hg : is_good_match result metadata with
            | true => simp [hg, save_to_cache_cache]
            | false =>
              cases hgb : search_google_books metadata fetch with
              | some r2 => simp [hg, hgb, save_to_cache_cache]
              | none => simp [hg, hgb]
          | none =>
            cases hgb : search_google_books metadata fetch with
            | some r2 => simp [hgb, save_to_cache_cache]
            | none => simp [hgb]
      | none =>
        simp only [hlk]
        cases ol with
        | some result =>
          cases hg : is_good_match result metadata with
          | true => simp [hg, save_to_cache_cache]
          | false =>
            cases hgb : search_google_books metadata fetch with
            | some r2 => simp [hg, hgb, save_to_cache_cache]
            | none => simp [hg, hgb]
        | none =>
          cases hgb : search_google_books metadata fetch with
          | some r2 => simp [hgb, save_to_cache_cache]
          | none => simp [hgb]
  · dsimp only [search_book]
    by_cases h0 : metadata.title = "" ∧ metadata.author = ""
    · simp only [if_pos h0]
    · simp only [if_neg h0]
      cases hlk : lookupRec (cacheKey metadata) st.cache with
      | some entry =>
        simp only [hlk]
        by_cases hfr : entry.timestamp > now - 86400
        · simp only [if_pos hfr]
        · simp only [if_neg hfr]
          cases ol with
          | some result =>
            cases hg : is_good_match result metadata with
            | true => simp [hg, save_to_cache_false_disk]
            | false =>
              cases hgb : search_google_books metadata fetch with
              | some r2 => simp [hg, hgb, save_to_cache_false_disk]
              | none => simp [hg, hgb]
          | none =>
            cases hgb : search_google_books metadata fetch with
            | some r2 => simp [hgb, save_to_cache_false_disk]
            | none => simp [hgb]
      | none =>
        simp only [hlk]
        cases ol with
        | some result =>
          cases hg : is_good_match result metadata with
          | true => simp [hg, save_to_cache_false_disk]
          | false =>
            cases hgb : search_google_books metadata fetch with
            | some r2 => simp [hg, hgb, save_to_cache_false_disk]
            | none => simp [hg, hgb]
        | none =>
          cases hgb : search_google_books metadata fetch with
          | some r2 => simp [hgb, save_to_cache_false_disk]
          | none => simp [hgb]
  · intro b hnone hb
    dsimp only [search_book] at hb ⊢
    by_cases h0 : metadata.title = "" ∧ metadata.author = ""
    · simp only [if_pos h0] at hb
      cases hb
    · simp only [if_neg h0] at hb ⊢
      cases hlk : lookupRec (cacheKey metadata) st.cache with
      | some entry =>
        rw [hlk] at hnone
        cases hnone
      | none =>
        simp only [hlk] at hb ⊢
        cases ol with
        | some result =>
          cases hg : is_good_match result metadata with
          | true =>
            simp only [hg, if_true] at hb ⊢
            have hb2 : result = b := by simpa using hb
            subst hb2
            rw [save_to_cache_cache]
            exact lookupRec_dictInsertRec_of_none _ _ _ hnone
          | false =>
            simp only [hg] at hb ⊢
            cases hgb : search_google_books metadata fetch with
            | some r2 =>
              simp only [hgb] at hb ⊢
              have hb2 : r2 = b := by simpa using hb
              subst hb2
              simp only [Bool.false_eq_true, if_false]
              rw [save_to_cache_cache]
              exact lookupRec_dictInsertRec_of_none _ _ _ hnone
            | none => simp [hgb] at hb
        | none =>
          cases hgb : search_google_books metadata fetch with
          | some r2 =>
            simp only [hgb] at hb ⊢
            have hb2 : r2 = b := by simpa using hb
            subst hb2
            rw [save_to_cache_cache]
            exact lookupRec_dictInsertRec_of_none _ _ _ hnone
          | none => simp [hgb] at hb

/-- The query of the C10 witness. -/
def c10meta : Meta := { author := "A", title := "T", series := "", series_index := "" }

/-- An OpenLibrary result accepted for `c10meta` (equal titles, matching
author: score 5). -/
def c10result : Meta := { author := "A", title := "T", series := "", series_index := "" }

/-- Witness for C10: with an empty starting cache and a failing disk
write, `search_book` still returns the accepted result, caches it in
memory, and leaves the disk untouched. -/
theorem C10_cache_write_failure_isolated_witness :
    (search_book (some c10result) (fun _ => none) false c10meta 1000
        { cache := [], disk := [] }).1 =
      (search_book (some c10result) (fun _ => none) true c10meta 1000
        { cache := [], disk := [] }).1 ∧
    (search_book (some c10result) (fun _ => none) false c10meta 1000
        { cache := [], disk := [] }).2.disk = [] ∧
    lookupRec (cacheKey c10meta)
        (search_book (some c10result) (fun _ => none) false c10meta 1000
          { cache := [], disk := [] }).2.cache =
      some { timestamp := 1000, data := c10result } :=
  ⟨(C10_cache_write_failure_isolated c10meta 1000 (some c10result) (fun _ => none)
      { cache := [], disk := [] }).1,
    (C10_cache_write_failure_isolated c10meta 1000 (some c10result) (fun _ => none)
      { cache := [], disk := [] }).2.2.1,
    (C10_cache_write_failure_isolated c10meta 1000 (some c10result) (fun _ => none)
      { cache := [], disk := [] }).2.2.2 c10result rfl (by decide)⟩

end AudiobookSorting
